import Mathlib

/-
  Verification of the document collection and deduplication pipeline of the
  financial-data-collector repository, against a shallow Lean embedding of
  its Python source (src/app/storage/data_store.py, src/app/collectors/*,
  src/app/scheduler/tasks.py, src/app/api/routes.py).

  Conventions of the embedding:
  * Python strings are Lean `String`; a value that Python may hold as `None`
    is an `Option`.
  * Python truthiness of an optional string (`None` and `""` are falsy) is
    `pyTruthy`; Python `a or b` on such values is `pyOr`.
  * Python dicts keyed by strings are association lists (first binding wins,
    keys kept unique by the update operation, as in a dict).
  * Exceptions are modelled explicitly with `Except PyExc`; a `try/except`
    block is a `match` on the guarded computation.  External effects
    (network, filesystem) are supplied as an environment value describing
    the outcome of each effectful step of a single call.
-/

set_option autoImplicit false

/-- Lowercase a string character by character (Python `str.lower()` on the
ASCII data the code handles). -/
def strLower (s : String) : String := ⟨s.data.map Char.toLower⟩

/-- Uppercase a string character by character (Python `str.upper()` on the
ASCII data the code handles). -/
def strUpper (s : String) : String := ⟨s.data.map Char.toUpper⟩

/-- Python `str.strip()`: remove leading and trailing whitespace. -/
def strStrip (s : String) : String :=
  ⟨((s.data.dropWhile Char.isWhitespace).reverse.dropWhile Char.isWhitespace).reverse⟩

/-- `listStarts n h` is true when the list `n` is an initial segment of `h`. -/
def listStarts : List Char → List Char → Bool
  | [], _ => true
  | _ :: _, [] => false
  | a :: as, b :: bs => a == b && listStarts as bs

/-- Python `str.startswith`. -/
def strStarts (hay needle : String) : Bool := listStarts needle.data hay.data

/-- Python `str.endswith`. -/
def strEnds (hay needle : String) : Bool := listStarts needle.data.reverse hay.data.reverse

/-- `listHas n h`: the list `n` occurs contiguously inside `h`. -/
def listHas (n : List Char) : List Char → Bool
  | [] => listStarts n []
  | c :: t => listStarts n (c :: t) || listHas n t

/-- Python `needle in hay` on strings (substring containment). -/
def strHas (hay needle : String) : Bool := listHas needle.data hay.data

/-- Python `str.replace(" ", "")`. -/
def strRemoveSpaces (s : String) : String := ⟨s.data.filter (fun c => c != ' ')⟩

/-- Python `str.zfill`: left-pad with `'0'` up to `width` (sign handling is
irrelevant for the CIK strings the code passes through it). -/
def zfill (s : String) (width : Nat) : String :=
  if s.length < width then ⟨List.replicate (width - s.length) '0' ++ s.data⟩ else s

/-- Truthiness of a Python value that is either a string or `None`:
`None` and the empty string are falsy. -/
def pyTruthy : Option String → Bool
  | none => false
  | some s => s ≠ ""

/-- Python `a or b` for optional strings: `a` if truthy, otherwise `b`
(returned as-is, even if falsy). -/
def pyOr (a b : Option String) : Option String := if pyTruthy a then a else b

/-- The slice of a document-metadata dict consulted by the store and its
callers.  The fetchers always populate `url` and `content_hash_sha256`;
fields never read by any modelled operation (timestamps, filenames, link
text, ...) are elided. -/
structure DocMeta where
  content_hash_sha256 : Option String
  url : Option String
deriving DecidableEq, Repr

/-- `doc_key = doc_metadata.get("content_hash_sha256") or doc_metadata.get("url")`
(data_store.py line 46), also used for each existing entry (line 52). -/
def docKey (m : DocMeta) : Option String := pyOr m.content_hash_sha256 m.url

/-- The per-ticker value of `document_metadata_store`:
`{"ir": [...], "sec": [...]}`. -/
structure TickerDocs where
  ir : List DocMeta
  sec : List DocMeta
deriving DecidableEq, Repr

/-- `document_metadata_store`: a dict from upper-cased ticker to its two
document lists, as an association list with unique keys. -/
abbrev Store := List (String × TickerDocs)

/-- Dict lookup: first binding for the key, if any. -/
def lookupStore : Store → String → Option TickerDocs
  | [], _ => none
  | (k, v) :: rest, key => if k = key then some v else lookupStore rest key

/-- Dict assignment `store[key] = v`: replace the existing binding or append
a new one. -/
def setStore : Store → String → TickerDocs → Store
  | [], key, v => [(key, v)]
  | (k, w) :: rest, key, v =>
    if k = key then (key, v) :: rest else (k, w) :: setStore rest key v

/-- `store[ticker_upper]` with the empty bucket as the out-of-dict default
(used only to state clean frame properties; the code itself inserts the
empty bucket before any read). -/
def bucketOf (s : Store) (key : String) : TickerDocs :=
  (lookupStore s key).getD ⟨[], []⟩

/-- `bucket[source_type]` for `source_type` in `{"ir", "sec"}` (any other
string is rejected before this access in the code). -/
def listOf (b : TickerDocs) (source_type : String) : List DocMeta :=
  if source_type = "ir" then b.ir else if source_type = "sec" then b.sec else []

/-- Replace one of the two lists of a bucket. -/
def setList (b : TickerDocs) (source_type : String) (l : List DocMeta) : TickerDocs :=
  if source_type = "ir" then { b with ir := l }
  else if source_type = "sec" then { b with sec := l } else b

/-- `DataStore.add_document_metadata` (data_store.py lines 30-63):
ensure the ticker bucket exists, reject invalid `source_type`, compute the
dedup key, and append unless a truthy key matches an existing entry. -/
def add_document_metadata (s : Store) (ticker source_type : String) (m : DocMeta) : Store :=
  let tu := strUpper ticker
  let s1 := if lookupStore s tu = none then setStore s tu ⟨[], []⟩ else s
  if source_type = "ir" ∨ source_type = "sec" then
    let docs := listOf (bucketOf s1 tu) source_type
    let key := docKey m
    let dup := pyTruthy key && docs.any (fun d => docKey d == key)
    if dup then s1
    else setStore s1 tu (setList (bucketOf s1 tu) source_type (docs ++ [m]))
  else s1

/-- The store's document count for a (ticker, category) pair. -/
def docCount (s : Store) (ticker source_type : String) : Nat :=
  (listOf (bucketOf s (strUpper ticker)) source_type).length

/-- A row of the company universe CSV as pandas holds it after
`pd.read_csv` (companies.py): the `cik` cell is `none` when the CSV cell is
empty (a pandas `NaN`). -/
structure CompanyRow where
  ticker : String
  company : Option String
  cik : Option String
deriving DecidableEq, Repr

/-- Python `str(x)` as applied by `df['cik'].astype(str)` (companies.py
line 55): a missing cell (pandas `NaN`) prints as `"nan"`. -/
def cikCellStr : Option String → String
  | some c => c
  | none => "nan"

/-- `get_company_cik` (companies.py lines 51-59): stringify and zero-pad
every cik cell to 10 characters, then return the cell of the first row
whose upper-cased ticker matches, else Python `None`. -/
def get_company_cik (df : List CompanyRow) (ticker : String) : Option String :=
  let df1 := df.map (fun r => { r with cik := some (zfill (cikCellStr r.cik) 10) })
  match df1.find? (fun r => strUpper r.ticker == strUpper ticker) with
  | some r => r.cik
  | none => none

/-- The `filings.recent` block of a submissions payload: parallel arrays.
`accessionNumber` is read with `.get("accessionNumber", [])`, so a missing
key is the same as an empty array for every use the code makes of it;
`form`, `filingDate` and `primaryDocument` are indexed directly (the claims
in scope have all arrays present); `reportDate`, `primaryDocDescription`
and `size` are read with `.get(key, [default])`, modelled as `Option`. -/
structure RecentBlock where
  accessionNumber : List String
  form : List String
  filingDate : List String
  reportDate : Option (List String)
  primaryDocument : List String
  primaryDocDescription : Option (List String)
  size : Option (List (Option Int))
deriving DecidableEq, Repr

/-- The `filing_info` dict built at sec_fetcher.py lines 195-203. -/
structure FilingInfo where
  accessionNumber : String
  filingDate : String
  reportDate : String
  form : String
  primaryDocument : String
  primaryDocDescription : String
  size : Option Int
deriving DecidableEq, Repr

/-- One iteration's dict construction (sec_fetcher.py lines 195-203), field
reads in the evaluation order of the dict literal; a `none` result models
the `IndexError` that the `except` clause at line 207 turns into a `break`
(the dict is never partially appended). -/
def buildFiling (r : RecentBlock) (i : Nat) (form : String) : Option FilingInfo := do
  let acc ← r.accessionNumber[i]?
  let fd ← r.filingDate[i]?
  let rd ← (r.reportDate.getD [""])[i]?
  let pd ← r.primaryDocument[i]?
  let pdd ← (r.primaryDocDescription.getD [""])[i]?
  let sz ← (r.size.getD [none])[i]?
  pure ⟨acc, fd, rd, form, pd, pdd, sz⟩

/-- The `for i in range(num_filings)` loop of `get_recent_filings_metadata`
(sec_fetcher.py lines 191-209): skip non-matching forms, stop at the first
`IndexError` (returning what was collected), stop once `count` entries are
collected. -/
def filings_loop (r : RecentBlock) (formTypes : List String) (count : Nat) :
    List Nat → List FilingInfo → List FilingInfo
  | [], acc => acc
  | i :: rest, acc =>
    match r.form[i]? with
    | none => acc
    | some f =>
      if f ∈ formTypes then
        match buildFiling r i f with
        | none => acc
        | some fi =>
          if count ≤ (acc ++ [fi]).length then acc ++ [fi]
          else filings_loop r formTypes count rest (acc ++ [fi])
      else filings_loop r formTypes count rest acc

/-- The list built from a `filings.recent` block by
`get_recent_filings_metadata`. -/
def recent_filings_list (r : RecentBlock) (formTypes : List String) (count : Nat) :
    List FilingInfo :=
  filings_loop r formTypes count (List.range r.accessionNumber.length) []

/-- The three shapes a submissions reply can take at the call site of
`get_recent_filings_metadata` (sec_fetcher.py lines 179-213): a dict
containing an `"error"` key (transport, HTTP, or JSON-decode failure), a
JSON document without a `filings.recent` section, or the recent block. -/
inductive SubmissionsData where
  | fetchError (msg : String)
  | noRecent
  | recent (r : RecentBlock)
deriving DecidableEq, Repr

/-- `get_company_submissions` (sec_fetcher.py lines 57-67): look up the
CIK; a falsy CIK (Python `None` or `""`) yields the error dict without any
network request, otherwise the request is issued and the environment's
reply is returned.  The `Bool` records whether the HTTP request to
`data.sec.gov` was issued, and the URL it carries is derived from the CIK
string. -/
def get_company_submissions (df : List CompanyRow) (ticker : String)
    (reply : SubmissionsData) : Bool × Option String × SubmissionsData :=
  match get_company_cik df ticker with
  | none => (false, none, .fetchError ("CIK not found for ticker " ++ ticker))
  | some cik =>
    if cik = "" then (false, none, .fetchError ("CIK not found for ticker " ++ ticker))
    else (true, some ("https://data.sec.gov/submissions/CIK" ++ cik ++ ".json"), reply)

/-- `get_recent_filings_metadata` (sec_fetcher.py lines 174-213): fetch the
submissions, return `[]` on an error reply or a payload without
`filings.recent`, otherwise run the collection loop.  The `Bool` propagates
whether the submissions request was issued. -/
def get_recent_filings_metadata (df : List CompanyRow) (ticker : String)
    (formTypes : List String) (count : Nat) (reply : SubmissionsData) :
    Bool × List FilingInfo :=
  match get_company_submissions df ticker reply with
  | (requested, _, .fetchError _) => (requested, [])
  | (requested, _, .noRecent) => (requested, [])
  | (requested, _, .recent r) => (requested, recent_filings_list r formTypes count)

/-- Spec-side definition for the resolver-truncation claim, from the spec's
words: an index is consumable when every parallel array consumed at it is
in range — `form` always, the remaining arrays only when the form matches
the requested filter. -/
def specRowOk (r : RecentBlock) (formTypes : List String) (i : Nat) : Bool :=
  match r.form[i]? with
  | none => false
  | some f =>
    if f ∈ formTypes then
      decide (i < r.accessionNumber.length) && decide (i < r.filingDate.length) &&
      decide (i < (r.reportDate.getD [""]).length) && decide (i < r.primaryDocument.length) &&
      decide (i < (r.primaryDocDescription.getD [""]).length) &&
      decide (i < (r.size.getD [none]).length)
    else true

/-- Spec-side: the entry collected at a consumable index, when its form
matches the filter. -/
def specPick (r : RecentBlock) (formTypes : List String) (i : Nat) : Option FilingInfo :=
  match r.form[i]? with
  | none => none
  | some f => if f ∈ formTypes then buildFiling r i f else none

/-- Spec-side definition of the resolver-truncation claim: the filtered
prefix of indices collected up to (exclusive) the first index out of range
of any consumed array, truncated to the requested count.  (`max count 1`
because the code checks the bound only after appending, so even
`count = 0` returns one collected entry; no claim concerns that edge.) -/
def spec_truncated_filings (r : RecentBlock) (formTypes : List String) (count : Nat) :
    List FilingInfo :=
  (((List.range r.accessionNumber.length).takeWhile (specRowOk r formTypes)).filterMap
      (specPick r formTypes)).take (max count 1)

/-- An anchor of the rendered IR page: its visible text and href, as read
at ir_scraper.py lines 118-119. -/
structure Anchor where
  text : String
  href : String
deriving DecidableEq, Repr

/-- `keywords_doc_type` (ir_scraper.py lines 107-115), in source order. -/
def keywords_doc_type : List (String × List String) :=
  [("10-K", ["10-k", "annual report"]),
   ("10-Q", ["10-q", "quarterly report"]),
   ("8-K", ["8-k", "current report"]),
   ("Earnings Release", ["earnings release", "results announcement"]),
   ("Presentation", ["presentation", "slide deck", "investor deck", "webcast slides"]),
   ("Transcript", ["transcript", "earnings call transcript"]),
   ("SEC Filings", ["sec filings", "edgar filings"])]

/-- `generic_keywords` (ir_scraper.py line 138). -/
def generic_keywords : List String :=
  ["financials", "report", "filing", "investor", "quarterly", "annual"]

/-- The recognised document file extensions (ir_scraper.py line 141). -/
def doc_extensions : List String :=
  [".pdf", ".xls", ".xlsx", ".doc", ".docx", ".ppt", ".pptx"]

/-- The original-prompt tags of the narrower second pass
(ir_scraper.py line 143). -/
def prompt_tags : List String := ["10-k", "10-q", "earnings", "slide", "transcript"]

/-- The classification performed on one anchor by the loop body of
`grab_ir_links` (ir_scraper.py lines 117-153): skip empty, fragment and
javascript hrefs; first keyword group matching the lowered, stripped link
text wins; else first group whose space-stripped keyword occurs in the
lowered href; else the generic-keyword and file-extension fallback with the
narrower tag pass; `none` models an anchor that stays `"Other"` and is
discarded.  It reads nothing but its two arguments and the constant
tables. -/
def classify_link (text href : String) : Option String :=
  if href = "" || strStarts href "#" || strStarts href "javascript:" then none
  else
    let link_text := strLower (strStrip text)
    let hrefLower := strLower href
    let m1 := (keywords_doc_type.find?
      (fun p => p.2.any (fun kw => strHas link_text kw))).map (fun p => p.1)
    let m2 :=
      match m1 with
      | some t => some t
      | none =>
        (keywords_doc_type.find?
          (fun p => p.2.any (fun kw => strHas hrefLower (strRemoveSpaces kw)))).map (fun p => p.1)
    match m2 with
    | some t => some t
    | none =>
      if generic_keywords.any (fun gk => strHas link_text gk || strHas hrefLower gk) then
        if doc_extensions.any (fun ext => strEnds hrefLower ext) then
          if prompt_tags.any (fun tag => strHas link_text tag) then
            if strHas link_text "10-k" then some "10-K"
            else if strHas link_text "10-q" then some "10-Q"
            else if strHas link_text "earnings" then some "Earnings Release"
            else if strHas link_text "slide" then some "Presentation"
            else if strHas link_text "transcript" then some "Transcript"
            else none
          else some "Financial Document"
        else none
      else none

/-- `urllib.parse.urljoin(base, href)`, elided to the branch shape the
claims exercise: an absolute href passes through, anything else is
resolved by concatenation.  No claim depends on URL resolution. -/
def pyUrljoin (base href : String) : String :=
  if strHas href "://" then href else base ++ href

/-- One entry of `links_found` (ir_scraper.py lines 155-160). -/
structure LinkInfo where
  url : String
  text : String
  type : String
  source_page : String
deriving DecidableEq, Repr

/-- The anchor loop of `grab_ir_links` (ir_scraper.py lines 117-161) over
the anchors of the rendered page, accumulating `links_found`: each
classified anchor is appended with its href resolved against the final
page URL. -/
def grab_ir_links_from (anchors : List Anchor) (actual_page_url : String) : List LinkInfo :=
  anchors.foldl
    (fun links_found a =>
      match classify_link a.text a.href with
      | none => links_found
      | some t =>
        links_found ++ [⟨pyUrljoin actual_page_url a.href, strStrip a.text, t, actual_page_url⟩])
    []

/-- A JSON value as `json.load` returns it, to the depth that
`_load_from_json`, `save_to_json` and the snapshot structure inspect it.
Numbers, booleans and null are irrelevant to every claim in scope and are
folded into `other`. -/
inductive PyJson where
  | str (s : String)
  | dict (entries : List (String × PyJson))
  | list (xs : List PyJson)
  | other

/-- Python `loaded_data.get(key, {})` on a decoded JSON dict: the value
bound to the key — read verbatim, whatever its type — else the default. -/
def jsonGet (entries : List (String × PyJson)) (key : String) (dflt : PyJson) : PyJson :=
  match entries.find? (fun p => p.1 == key) with
  | some p => p.2
  | none => dflt

/-- The in-memory state of `DataStore` as `__init__`/`_load_from_json`
leave it: the three record-family attributes hold whatever was assigned.
The code performs no shape check on the loaded values, so each family is
an arbitrary decoded JSON value. -/
structure DataStoreState where
  companies_info : PyJson
  document_metadata_store : PyJson
  summary_metadata_store : PyJson

/-- The store with all three record families empty
(`DataStore._initialize_empty_store`, data_store.py lines 170-173). -/
def emptyDataStore : DataStoreState := ⟨.dict [], .dict [], .dict []⟩

/-- The snapshot file on disk: absent; present but failing `open` or
`json.load`; or carrying a decodable JSON value — of any shape. -/
inductive StoreFile where
  | missing
  | undecodable
  | decoded (v : PyJson)

/-- `DataStore._load_from_json` (data_store.py lines 149-173): a missing
file or a `json.load` failure initialises the empty store; a decoded JSON
dict has its three families read with `loaded_data.get(key, {})` and
assigned verbatim — ill-typed family values included, with no shape
check; a decoded non-dict raises `AttributeError` at the `.get` call,
which the `except Exception` clause catches, initialising the empty
store.  Every exception inside the function is caught, so the embedding
is total and construction never raises. -/
def load_from_json : StoreFile → DataStoreState
  | .missing => emptyDataStore
  | .undecodable => emptyDataStore
  | .decoded (.dict entries) =>
    ⟨jsonGet entries "companies_info" (.dict []),
     jsonGet entries "document_metadata_store" (.dict []),
     jsonGet entries "summary_metadata_store" (.dict [])⟩
  | .decoded _ => emptyDataStore

/-- `DataStore.save_to_json` (data_store.py lines 132-147): on a working
filesystem the four keys are dumped as one JSON dict; any exception is
caught and printed, leaving the previous file state in place. -/
def save_to_json (st : DataStoreState) (now : String) (fsOk : Bool)
    (old : StoreFile) : StoreFile :=
  if fsOk then
    .decoded (.dict
      [("companies_info", st.companies_info),
       ("document_metadata_store", st.document_metadata_store),
       ("summary_metadata_store", st.summary_metadata_store),
       ("last_saved_at", .str now)])
  else old

def isJDict : PyJson → Bool
  | .dict _ => true
  | _ => false

/-- A file that decodes as the expected snapshot structure: a JSON dict
whose three record families are themselves dicts — the shape the code
writes and reads back. -/
def wellFormedFile : StoreFile → Bool
  | .decoded (.dict entries) =>
    isJDict (jsonGet entries "companies_info" (.dict [])) &&
    isJDict (jsonGet entries "document_metadata_store" (.dict [])) &&
    isJDict (jsonGet entries "summary_metadata_store" (.dict []))
  | _ => false

/-- A Python exception, split the way the downloaders' `except` clauses
split it: `requests.RequestException` versus everything else. -/
inductive PyExc where
  | requestExc (msg : String)
  | otherExc (msg : String)
deriving DecidableEq, Repr

/-- The outcome of each effectful step of one fetch-and-persist call, as
the outside world (network and filesystem) determines it.  Path and
filename derivation are pure string work with no bearing on any claim in
scope and are elided; `fileExists`/`metaExists` are the `os.path.exists`
checks on the deterministic target path and its sidecar. -/
structure FetchEnv where
  makedirsResult : Except PyExc Unit
  fileExists : Bool
  metaExists : Bool
  metaRead : Except PyExc DocMeta
  httpGet : Except PyExc Unit
  bodyWrite : Except PyExc Unit
  hashRead : Except PyExc String
  metaWrite : Except PyExc Unit

/-- The result dict of a download operation: `success`, the optional
`status` key (the SEC CIK-not-found dict has none), the metadata dict on
success, the error string on failure. -/
structure DlResult where
  success : Bool
  status : Option String
  metadata : Option DocMeta
  error : Option String
deriving DecidableEq, Repr

def isOkU : Except PyExc Unit → Bool
  | .ok _ => true
  | .error _ => false

def isOkMeta : Except PyExc DocMeta → Bool
  | .ok _ => true
  | .error _ => false

/-- An environment in which the pre-`try` effects of a download call (the
`os.makedirs` and, when the artifact and sidecar exist, the sidecar read)
succeed. -/
def safeEnv (env : FetchEnv) : Bool :=
  isOkU env.makedirsResult && (!(env.fileExists && env.metaExists) || isOkMeta env.metaRead)

/-- The shared `try` body of `IRScraper.download_document` (ir_scraper.py
lines 218-268) and `SECFetcher.download_filing_document` (sec_fetcher.py
lines 137-165): request (with `raise_for_status`), stream to disk, hash
the written bytes, write the sidecar, return the success dict.  Any step's
exception propagates to the `except` clauses of the caller. -/
def download_try_body (env : FetchEnv) (url : String) : Except PyExc DlResult := do
  let _ ← env.httpGet
  let _ ← env.bodyWrite
  let h ← env.hashRead
  let _ ← env.metaWrite
  pure ⟨true, some "downloaded", some ⟨some h, some url⟩, none⟩

/-- `IRScraper.download_document` (ir_scraper.py lines 180-274).
`os.makedirs` (line 189) and the read of an existing sidecar (lines
202-214) run before the `try`, so their exceptions propagate out of the
call (`Except.error`); inside the `try`, a `requests.RequestException`
yields the `failed_download` dict and any other exception the
`failed_unexpected` dict.  An existing artifact without a sidecar falls
through to a fresh download, as in the source. -/
def download_document (env : FetchEnv) (url : String) : Except PyExc DlResult :=
  match env.makedirsResult with
  | .error e => .error e
  | .ok _ =>
    if env.fileExists && env.metaExists then
      match env.metaRead with
      | .error e => .error e
      | .ok m => .ok ⟨true, some "skipped_exists", some m, none⟩
    else
      match download_try_body env url with
      | .ok res => .ok res
      | .error (.requestExc msg) => .ok ⟨false, some "failed_download", none, some msg⟩
      | .error (.otherExc msg) => .ok ⟨false, some "failed_unexpected", none, some msg⟩

/-- `SECFetcher.download_filing_document` (sec_fetcher.py lines 102-172): a
falsy CIK returns the `success: False` dict (with no `status` key) without
touching network or disk; otherwise the same pre-`try` / `try` structure
as the IR downloader (`os.makedirs` at line 118 and the sidecar read at
lines 126-134 are outside the `try`). -/
def download_filing_document (df : List CompanyRow) (ticker : String) (env : FetchEnv)
    (url : String) : Except PyExc DlResult :=
  match get_company_cik df ticker with
  | none => .ok ⟨false, none, none, some ("CIK not found for ticker " ++ ticker)⟩
  | some cik =>
    if cik = "" then .ok ⟨false, none, none, some ("CIK not found for ticker " ++ ticker)⟩
    else
      match env.makedirsResult with
      | .error e => .error e
      | .ok _ =>
        if env.fileExists && env.metaExists then
          match env.metaRead with
          | .error e => .error e
          | .ok m => .ok ⟨true, some "skipped_exists", some m, none⟩
        else
          match download_try_body env url with
          | .ok res => .ok res
          | .error (.requestExc msg) => .ok ⟨false, some "failed_download", none, some msg⟩
          | .error (.otherExc msg) => .ok ⟨false, some "failed_unexpected", none, some msg⟩

/-- The download loop of `IRScraper.process_company` (ir_scraper.py lines
286-296): a generic SEC-filings-page link outside sec.gov is skipped,
every other link is downloaded and its result dict appended.  A raised
exception propagates and aborts the loop; a returned `Failed` dict is
appended like any other result and the loop continues. -/
def process_company_downloads : List (LinkInfo × FetchEnv) → Except PyExc (List DlResult)
  | [] => .ok []
  | (li, env) :: rest =>
    if li.type == "SEC Filings Page" && !(strHas li.url "sec.gov") then
      process_company_downloads rest
    else
      match download_document env li.url with
      | .error e => .error e
      | .ok r =>
        match process_company_downloads rest with
        | .error e => .error e
        | .ok rs => .ok (r :: rs)

/-- The metadata-storing loop shared by `_collect_ir_for_company` and
`_collect_sec_for_company` (tasks.py lines 41-72) and by the collect
routes (routes.py lines 88-94 and 119-125): a result flows into
`add_document_metadata` exactly when `success` is true and `status` equals
`"downloaded"`; the counter mirrors the source's `successful_downloads`,
incremented in the same branch.  (Every `"downloaded"` result carries its
metadata dict, which the source indexes directly; the `getD` default only
serves the model's typing.) -/
def store_download_results (s : Store) (ticker source_type : String)
    (results : List DlResult) : Store × Nat :=
  results.foldl
    (fun acc res =>
      if res.success && res.status == some "downloaded" then
        (add_document_metadata acc.1 ticker source_type (res.metadata.getD ⟨none, none⟩),
         acc.2 + 1)
      else acc)
    (s, 0)

theorem lookupStore_setStore_self (s : Store) (k : String) (v : TickerDocs) :
    lookupStore (setStore s k v) k = some v := by
  induction s with
  | nil => simp [setStore, lookupStore]
  | cons hd tl ih =>
    obtain ⟨k', v'⟩ := hd
    by_cases h : k' = k <;> simp [setStore, lookupStore, h, ih]

theorem lookupStore_setStore_other (s : Store) (k k' : String) (v : TickerDocs)
    (h : k' ≠ k) : lookupStore (setStore s k v) k' = lookupStore s k' := by
  induction s with
  | nil => simp [setStore, lookupStore, Ne.symm h]
  | cons hd tl ih =>
    obtain ⟨k0, v0⟩ := hd
    by_cases h0 : k0 = k
    · subst h0
      simp [setStore, lookupStore, Ne.symm h]
    · by_cases h1 : k0 = k' <;> simp [setStore, lookupStore, h0, h1, ih, h]

theorem bucketOf_ensure (s : Store) (tu k' : String) :
    bucketOf (if lookupStore s tu = none then setStore s tu ⟨[], []⟩ else s) k' =
      bucketOf s k' := by
  by_cases h : lookupStore s tu = none
  · by_cases hk : k' = tu
    · subst hk
      simp [bucketOf, h, lookupStore_setStore_self]
    · simp [bucketOf, h, lookupStore_setStore_other s tu k' _ hk]
  · simp [h]

theorem listOf_setList_self (b : TickerDocs) (c : String) (l : List DocMeta)
    (hc : c = "ir" ∨ c = "sec") : listOf (setList b c l) c = l := by
  rcases hc with h | h <;> subst h <;> simp [listOf, setList]

theorem add_result (s : Store) (t c : String) (m : DocMeta) (hc : c = "ir" ∨ c = "sec") :
    listOf (bucketOf (add_document_metadata s t c m) (strUpper t)) c =
      (if (pyTruthy (docKey m) &&
            ((listOf (bucketOf s (strUpper t)) c).any (fun d => docKey d == docKey m))) = true
       then listOf (bucketOf s (strUpper t)) c
       else listOf (bucketOf s (strUpper t)) c ++ [m]) := by
  have hens := bucketOf_ensure s (strUpper t) (strUpper t)
  unfold add_document_metadata
  simp only [hens, if_pos hc]
  by_cases hdup : (pyTruthy (docKey m) &&
      ((listOf (bucketOf s (strUpper t)) c).any (fun d => docKey d == docKey m))) = true
  · simp [hdup, hens]
  · simp only [hdup, if_neg, Bool.not_eq_true] at *
    simp [hdup, bucketOf, lookupStore_setStore_self, listOf_setList_self _ _ _ hc, hens]

theorem add_eq_of_dup (s : Store) (t c : String) (m : DocMeta) (hc : c = "ir" ∨ c = "sec")
    (hb : lookupStore s (strUpper t) ≠ none)
    (hd : (pyTruthy (docKey m) &&
      ((listOf (bucketOf s (strUpper t)) c).any (fun d => docKey d == docKey m))) = true) :
    add_document_metadata s t c m = s := by
  have hens := bucketOf_ensure s (strUpper t) (strUpper t)
  unfold add_document_metadata
  simp only [if_neg hb, if_pos hc] at *
  simp [hd]

theorem add_bucket_exists (s : Store) (t c : String) (m : DocMeta) :
    lookupStore (add_document_metadata s t c m) (strUpper t) ≠ none := by
  unfold add_document_metadata
  by_cases h : lookupStore s (strUpper t) = none <;>
    by_cases hv : c = "ir" ∨ c = "sec" <;>
      simp [h, hv, lookupStore_setStore_self] <;> split <;>
        simp [h, lookupStore_setStore_self]

theorem add_key_mem (s : Store) (t c : String) (m : DocMeta) (hc : c = "ir" ∨ c = "sec")
    (hk : pyTruthy (docKey m) = true) :
    ((listOf (bucketOf (add_document_metadata s t c m) (strUpper t)) c).any
      (fun d => docKey d == docKey m)) = true := by
  rw [add_result s t c m hc]
  by_cases hd : ((listOf (bucketOf s (strUpper t)) c).any (fun d => docKey d == docKey m)) = true
  · simp [hk, hd]
  · simp [hk, hd]

theorem add_add_dup_eq (s : Store) (t c : String) (m1 m2 : DocMeta) (k : String)
    (hc : c = "ir" ∨ c = "sec")
    (h1 : docKey m1 = some k) (h2 : docKey m2 = some k) (hk : k ≠ "") :
    add_document_metadata (add_document_metadata s t c m1) t c m2 =
      add_document_metadata s t c m1 := by
  have ht1 : pyTruthy (docKey m1) = true := by rw [h1]; simp [pyTruthy, hk]
  have ht2 : pyTruthy (docKey m2) = true := by rw [h2]; simp [pyTruthy, hk]
  have hkk : docKey m2 = docKey m1 := by rw [h1, h2]
  have hmem := add_key_mem s t c m1 hc ht1
  exact add_eq_of_dup _ t c m2 hc (add_bucket_exists s t c m1)
    (by rw [ht2, hkk]; simp [hmem])

theorem add_append_of_not_dup (s : Store) (t c : String) (m : DocMeta)
    (hc : c = "ir" ∨ c = "sec")
    (hnd : (pyTruthy (docKey m) &&
      ((listOf (bucketOf s (strUpper t)) c).any (fun d => docKey d == docKey m))) = false) :
    listOf (bucketOf (add_document_metadata s t c m) (strUpper t)) c =
      listOf (bucketOf s (strUpper t)) c ++ [m] := by
  rw [add_result s t c m hc, hnd]
  simp

theorem docKey_of_hash (m : DocMeta) (h : String) (hh : m.content_hash_sha256 = some h)
    (hne : h ≠ "") : docKey m = some h := by
  simp [docKey, pyOr, hh, pyTruthy, hne]

theorem docKey_of_no_hash (m : DocMeta) (hh : pyTruthy m.content_hash_sha256 = false) :
    docKey m = m.url := by
  simp [docKey, pyOr, hh]

/-- Claim C4 (confirmed): for every store state, ticker and category in
`{ir, sec}`, adding two metadata values that share the same dedup key (a
truthy key, i.e. a non-empty string: a present fingerprint, else a present
URL — key-less metadata has no dedup key, see the claim about key-less
inserts) leaves the document count for that (ticker, category) at the value
it had after the first call: the second insert is silently dropped. -/
theorem add_document_idempotent (s : Store) (t c : String) (m1 m2 : DocMeta) (k : String)
    (hc : c = "ir" ∨ c = "sec")
    (h1 : docKey m1 = some k) (h2 : docKey m2 = some k) (hk : k ≠ "") :
    docCount (add_document_metadata (add_document_metadata s t c m1) t c m2) t c =
      docCount (add_document_metadata s t c m1) t c := by
  rw [add_add_dup_eq s t c m1 m2 k hc h1 h2 hk]

theorem add_document_idempotent_witness :
    ("ir" = "ir" ∨ "ir" = "sec")
    ∧ docKey ⟨some "h", some "u1"⟩ = some "h"
    ∧ docKey ⟨some "h", some "u2"⟩ = some "h"
    ∧ "h" ≠ ""
    ∧ docCount (add_document_metadata
        (add_document_metadata [] "aapl" "ir" ⟨some "h", some "u1"⟩)
        "aapl" "ir" ⟨some "h", some "u2"⟩) "aapl" "ir" =
      docCount (add_document_metadata [] "aapl" "ir" ⟨some "h", some "u1"⟩) "aapl" "ir" :=
  ⟨Or.inl rfl, by decide, by decide, by decide,
    add_document_idempotent [] "aapl" "ir" ⟨some "h", some "u1"⟩ ⟨some "h", some "u2"⟩ "h"
      (Or.inl rfl) (by decide) (by decide) (by decide)⟩

/-- Claim C5 (confirmed): the dedup key of `add_document_metadata` is the
content fingerprint when present (non-empty), else the source URL.
Part 1: two entries with different URLs but the same non-empty fingerprint
are duplicates (the second insert is dropped).
Part 2: with fingerprints absent (falsy) from both entries, equal non-empty
URLs make the second entry a duplicate.
Part 3: with fingerprints absent from both entries, different URLs (the
second one not already keyed in the store) make the second entry a fresh
insert — so URL equality alone decides duplication. -/
theorem dedup_key_precedence :
    (∀ (s : Store) (t c : String) (m1 m2 : DocMeta) (h : String),
      (c = "ir" ∨ c = "sec") →
      m1.content_hash_sha256 = some h → m2.content_hash_sha256 = some h → h ≠ "" →
      m1.url ≠ m2.url →
      add_document_metadata (add_document_metadata s t c m1) t c m2 =
        add_document_metadata s t c m1)
    ∧ (∀ (s : Store) (t c : String) (m1 m2 : DocMeta) (u : String),
      (c = "ir" ∨ c = "sec") →
      pyTruthy m1.content_hash_sha256 = false → pyTruthy m2.content_hash_sha256 = false →
      m1.url = some u → m2.url = some u → u ≠ "" →
      add_document_metadata (add_document_metadata s t c m1) t c m2 =
        add_document_metadata s t c m1)
    ∧ (∀ (s : Store) (t c : String) (m1 m2 : DocMeta) (u1 u2 : String),
      (c = "ir" ∨ c = "sec") →
      pyTruthy m1.content_hash_sha256 = false → pyTruthy m2.content_hash_sha256 = false →
      m1.url = some u1 → m2.url = some u2 → u1 ≠ "" → u2 ≠ "" → u1 ≠ u2 →
      (∀ d ∈ listOf (bucketOf s (strUpper t)) c, docKey d ≠ some u2) →
      docCount (add_document_metadata (add_document_metadata s t c m1) t c m2) t c =
        docCount (add_document_metadata s t c m1) t c + 1) := by
  refine ⟨?_, ?_, ?_⟩
  · intro s t c m1 m2 h hc hh1 hh2 hne _
    exact add_add_dup_eq s t c m1 m2 h hc (docKey_of_hash m1 h hh1 hne)
      (docKey_of_hash m2 h hh2 hne) hne
  · intro s t c m1 m2 u hc hh1 hh2 hu1 hu2 hune
    exact add_add_dup_eq s t c m1 m2 u hc
      ((docKey_of_no_hash m1 hh1).trans hu1) ((docKey_of_no_hash m2 hh2).trans hu2) hune
  · intro s t c m1 m2 u1 u2 hc hh1 hh2 hu1 hu2 hne1 hne2 hne hno
    have h1k : docKey m1 = some u1 := (docKey_of_no_hash m1 hh1).trans hu1
    have h2k : docKey m2 = some u2 := (docKey_of_no_hash m2 hh2).trans hu2
    have hany : ((listOf (bucketOf (add_document_metadata s t c m1) (strUpper t)) c).any
        (fun d => docKey d == docKey m2)) = false := by
      rw [add_result s t c m1 hc]
      have hdocs : ((listOf (bucketOf s (strUpper t)) c).any
          (fun d => docKey d == docKey m2)) = false := by
        rw [List.any_eq_false]
        intro d hd
        simp only [beq_iff_eq, h2k]
        exact hno d hd
      split
      · exact hdocs
      · rw [List.any_append, hdocs]
        simp [h1k, h2k, hne]
    rw [docCount, add_append_of_not_dup _ t c m2 hc (by simp [hany])]
    simp [docCount]

theorem dedup_key_precedence_witness :
    docCount (add_document_metadata
        (add_document_metadata [] "t" "sec" ⟨some "h", some "u1"⟩)
        "t" "sec" ⟨some "h", some "u2"⟩) "t" "sec" =
      docCount (add_document_metadata [] "t" "sec" ⟨some "h", some "u1"⟩) "t" "sec"
    ∧ docCount (add_document_metadata
        (add_document_metadata [] "t" "sec" ⟨none, some "u"⟩)
        "t" "sec" ⟨some "", some "u"⟩) "t" "sec" =
      docCount (add_document_metadata [] "t" "sec" ⟨none, some "u"⟩) "t" "sec"
    ∧ docCount (add_document_metadata
        (add_document_metadata [] "t" "sec" ⟨none, some "ua"⟩)
        "t" "sec" ⟨none, some "ub"⟩) "t" "sec" =
      docCount (add_document_metadata [] "t" "sec" ⟨none, some "ua"⟩) "t" "sec" + 1 :=
  ⟨congrArg (fun st => docCount st "t" "sec")
      (dedup_key_precedence.1 [] "t" "sec" ⟨some "h", some "u1"⟩ ⟨some "h", some "u2"⟩ "h"
        (Or.inr rfl) rfl rfl (by decide) (by decide)),
   congrArg (fun st => docCount st "t" "sec")
      (dedup_key_precedence.2.1 [] "t" "sec" ⟨none, some "u"⟩ ⟨some "", some "u"⟩ "u"
        (Or.inr rfl) (by decide) (by decide) rfl rfl (by decide)),
   dedup_key_precedence.2.2 [] "t" "sec" ⟨none, some "ua"⟩ ⟨none, some "ub"⟩ "ua" "ub"
      (Or.inr rfl) (by decide) (by decide) rfl rfl (by decide) (by decide) (by decide)
      (by simp [bucketOf, lookupStore, listOf])⟩

/-- Claim C9 (confirmed): for every `source_type` other than `"ir"` or
`"sec"`, `add_document_metadata` appends nothing: every (ticker, category)
document list is unchanged, even though a missing ticker bucket may be
created (empty). -/
theorem add_invalid_source_frame (s : Store) (t st : String) (m : DocMeta)
    (h1 : st ≠ "ir") (h2 : st ≠ "sec") (t' c' : String) :
    listOf (bucketOf (add_document_metadata s t st m) (strUpper t')) c' =
      listOf (bucketOf s (strUpper t')) c' := by
  unfold add_document_metadata
  have hv : ¬(st = "ir" ∨ st = "sec") := by
    rintro (h | h)
    exacts [h1 h, h2 h]
  simp only [if_neg hv]
  rw [bucketOf_ensure]

theorem add_invalid_source_frame_witness :
    ("docs" ≠ "ir") ∧ ("docs" ≠ "sec")
    ∧ listOf (bucketOf (add_document_metadata [] "t" "docs" ⟨some "h", some "u"⟩)
        (strUpper "t")) "ir" = listOf (bucketOf [] (strUpper "t")) "ir" :=
  ⟨by decide, by decide,
    add_invalid_source_frame [] "t" "docs" ⟨some "h", some "u"⟩ (by decide) (by decide) "t" "ir"⟩

/-- Claim C10 (confirmed): metadata whose fingerprint and URL are both
absent (falsy: missing or empty) has no dedup key, so the duplicate check
is skipped and every call appends; two successive identical key-less calls
raise the (ticker, category) count by two. -/
theorem add_keyless_always_appends (s : Store) (t c : String) (m : DocMeta)
    (hc : c = "ir" ∨ c = "sec") (hk : pyTruthy (docKey m) = false) :
    docCount (add_document_metadata s t c m) t c = docCount s t c + 1
    ∧ docCount (add_document_metadata (add_document_metadata s t c m) t c m) t c =
        docCount s t c + 2 := by
  have step : ∀ s0 : Store, docCount (add_document_metadata s0 t c m) t c = docCount s0 t c + 1 := by
    intro s0
    rw [docCount, add_append_of_not_dup s0 t c m hc (by simp [hk])]
    simp [docCount]
  exact ⟨step s, by rw [step _, step s]⟩

theorem add_keyless_always_appends_witness :
    ("ir" = "ir" ∨ "ir" = "sec")
    ∧ pyTruthy (docKey ⟨none, some ""⟩) = false
    ∧ docCount (add_document_metadata [] "t" "ir" ⟨none, some ""⟩) "t" "ir" =
        docCount ([] : Store) "t" "ir" + 1
    ∧ docCount (add_document_metadata (add_document_metadata [] "t" "ir" ⟨none, some ""⟩)
        "t" "ir" ⟨none, some ""⟩) "t" "ir" = docCount ([] : Store) "t" "ir" + 2 :=
  ⟨Or.inl rfl, by decide,
    (add_keyless_always_appends [] "t" "ir" ⟨none, some ""⟩ (Or.inl rfl) (by decide)).1,
    (add_keyless_always_appends [] "t" "ir" ⟨none, some ""⟩ (Or.inl rfl) (by decide)).2⟩


theorem buildFiling_isSome_iff (r : RecentBlock) (i : Nat) (f : String) :
    (buildFiling r i f).isSome = true ↔
      (i < r.accessionNumber.length ∧ i < r.filingDate.length ∧
       i < (r.reportDate.getD [""]).length ∧ i < r.primaryDocument.length ∧
       i < (r.primaryDocDescription.getD [""]).length ∧
       i < (r.size.getD [none]).length) := by
  simp only [buildFiling, Option.isSome_iff_exists, Option.bind_eq_bind, Option.bind_eq_some,
    Option.pure_def, Option.some.injEq]
  constructor
  · rintro ⟨fi, a, ha, b, hb, c, hc, d, hd, e, he, g, hg, rfl⟩
    exact ⟨(List.getElem?_eq_some.mp ha).1, (List.getElem?_eq_some.mp hb).1,
      (List.getElem?_eq_some.mp hc).1, (List.getElem?_eq_some.mp hd).1,
      (List.getElem?_eq_some.mp he).1, (List.getElem?_eq_some.mp hg).1⟩
  · rintro ⟨h1, h2, h3, h4, h5, h6⟩
    exact ⟨_, _, List.getElem?_eq_getElem h1, _, List.getElem?_eq_getElem h2,
      _, List.getElem?_eq_getElem h3, _, List.getElem?_eq_getElem h4,
      _, List.getElem?_eq_getElem h5, _, List.getElem?_eq_getElem h6, rfl⟩

theorem filings_loop_spec (r : RecentBlock) (ft : List String) (count : Nat) :
    ∀ (idxs : List Nat) (acc : List FilingInfo), acc.length < max count 1 →
      filings_loop r ft count idxs acc =
        acc ++ ((idxs.takeWhile (specRowOk r ft)).filterMap (specPick r ft)).take
          (max count 1 - acc.length) := by
  intro idxs
  induction idxs with
  | nil => intro acc _; simp [filings_loop]
  | cons i rest ih =>
    intro acc hacc
    cases hform : r.form[i]? with
    | none =>
      have hrow : specRowOk r ft i = false := by simp [specRowOk, hform]
      simp [filings_loop, hform, List.takeWhile_cons, hrow]
    | some f =>
      by_cases hf : f ∈ ft
      · cases hb : buildFiling r i f with
        | none =>
          have hrow : specRowOk r ft i = false := by
            simp only [specRowOk, hform, if_pos hf]
            by_contra hcon
            rw [Bool.not_eq_false] at hcon
            simp only [Bool.and_eq_true, decide_eq_true_eq] at hcon
            obtain ⟨⟨⟨⟨⟨c1, c2⟩, c3⟩, c4⟩, c5⟩, c6⟩ := hcon
            have hs := (buildFiling_isSome_iff r i f).mpr ⟨c1, c2, c3, c4, c5, c6⟩
            rw [hb] at hs
            simp at hs
          simp [filings_loop, hform, hf, hb, List.takeWhile_cons, hrow]
        | some fi =>
          have hs : (buildFiling r i f).isSome = true := by simp [hb]
          obtain ⟨h1, h2, h3, h4, h5, h6⟩ := (buildFiling_isSome_iff r i f).mp hs
          have hrow : specRowOk r ft i = true := by
            simp [specRowOk, hform, hf, h1, h2, h3, h4, h5, h6]
          have hpick : specPick r ft i = some fi := by simp [specPick, hform, hf, hb]
          have hsub : max count 1 - acc.length = (max count 1 - acc.length - 1) + 1 := by
            omega
          rw [List.takeWhile_cons, if_pos hrow, List.filterMap_cons, hpick, hsub,
            List.take_succ_cons]
          by_cases hcnt : count ≤ acc.length + 1
          · have hM : max count 1 - acc.length - 1 = 0 := by omega
            simp [filings_loop, hform, hf, hb, hcnt, hM]
          · have hlt : (acc ++ [fi]).length < max count 1 := by
              simp only [List.length_append, List.length_cons, List.length_nil]
              omega
            have hM : max count 1 - acc.length - 1 = max count 1 - (acc ++ [fi]).length := by
              simp only [List.length_append, List.length_cons, List.length_nil]
              omega
            have hcond : ¬ count ≤ (acc ++ [fi]).length := by
              simp only [List.length_append, List.length_cons, List.length_nil]
              omega
            simp only [filings_loop, hform, hf, if_true, hb, if_neg hcond]
            rw [ih (acc ++ [fi]) hlt, hM]
            simp
      · have hrow : specRowOk r ft i = true := by simp [specRowOk, hform, hf]
        have hpick : specPick r ft i = none := by simp [specPick, hform, hf]
        rw [List.takeWhile_cons, if_pos hrow, List.filterMap_cons, hpick]
        simp only [filings_loop, hform, hf, if_false]
        exact ih acc hacc

/-- Claim C3 (confirmed): for every submissions payload whose parallel
arrays have any (possibly inconsistent) lengths, `get_recent_filings_metadata`
returns exactly the filtered prefix collected up to the first index that
falls out of range of any consumed array (the spec-side
`spec_truncated_filings`); the `except IndexError` clause turns the only
exception that can arise in the loop into a `break`, so nothing is raised
to the caller (the embedding is a total function). -/
theorem resolver_truncation (df : List CompanyRow) (ticker : String) (ft : List String)
    (count : Nat) (r : RecentBlock) (c : String)
    (hc : get_company_cik df ticker = some c) (hne : c ≠ "") :
    get_recent_filings_metadata df ticker ft count (.recent r) =
      (true, spec_truncated_filings r ft count) := by
  have h0 : (0 : Nat) < max count 1 := lt_of_lt_of_le Nat.zero_lt_one (le_max_right count 1)
  have hloop := filings_loop_spec r ft count (List.range r.accessionNumber.length) []
    (by simp [h0])
  unfold get_recent_filings_metadata get_company_submissions
  rw [hc]
  simp [hne, recent_filings_list, hloop, spec_truncated_filings]

theorem resolver_truncation_witness :
    get_company_cik [⟨"AAPL", some "Apple", some "0000320193"⟩] "AAPL" = some "0000320193"
    ∧ "0000320193" ≠ ""
    ∧ get_recent_filings_metadata [⟨"AAPL", some "Apple", some "0000320193"⟩] "AAPL"
        ["10-K"] 10 (.recent ⟨["a1", "a2", "a3"], ["10-K", "10-K", "10-K"], ["d1"],
          some ["r1", "r2", "r3"], ["p1", "p2", "p3"], some ["x1", "x2", "x3"],
          some [some 1, some 2, some 3]⟩) =
      (true, spec_truncated_filings ⟨["a1", "a2", "a3"], ["10-K", "10-K", "10-K"], ["d1"],
          some ["r1", "r2", "r3"], ["p1", "p2", "p3"], some ["x1", "x2", "x3"],
          some [some 1, some 2, some 3]⟩ ["10-K"] 10) :=
  ⟨by decide, by decide,
    resolver_truncation [⟨"AAPL", some "Apple", some "0000320193"⟩] "AAPL" ["10-K"] 10
      ⟨["a1", "a2", "a3"], ["10-K", "10-K", "10-K"], ["d1"], some ["r1", "r2", "r3"],
        ["p1", "p2", "p3"], some ["x1", "x2", "x3"], some [some 1, some 2, some 3]⟩
      "0000320193" (by decide) (by decide)⟩

/-- Claim C2 (code_bug): a ticker that is in the universe but has no CIK on
record does not resolve to NotFound.  pandas stringifies the missing cell
to `"nan"` (`df['cik'].astype(str)`), `zfill(10)` pads it to
`"0000000nan"`, and `get_company_cik` returns that truthy string; the
submissions request is then issued for the nonsense URL
`.../CIK0000000nan.json` instead of being skipped.  The last conjunct shows
the half of the claim that does hold: for a ticker absent from the
universe, no request is issued and the result is empty. -/
theorem resolve_identifier_nan_code_bug :
    get_company_cik [⟨"ZZZ", some "ZZZ Corp", none⟩] "ZZZ" = some "0000000nan"
    ∧ (get_company_submissions [⟨"ZZZ", some "ZZZ Corp", none⟩] "ZZZ" .noRecent).1 = true
    ∧ (get_company_submissions [⟨"ZZZ", some "ZZZ Corp", none⟩] "ZZZ" .noRecent).2.1 =
        some "https://data.sec.gov/submissions/CIK0000000nan.json"
    ∧ get_recent_filings_metadata [] "ZZZ" ["10-K"] 10 .noRecent = (false, []) :=
  ⟨by decide, by decide, by decide, by decide⟩

theorem grab_ir_links_foldl (page : String) :
    ∀ (anchors : List Anchor) (acc : List LinkInfo),
      anchors.foldl
        (fun links_found a =>
          match classify_link a.text a.href with
          | none => links_found
          | some t =>
            links_found ++ [⟨pyUrljoin page a.href, strStrip a.text, t, page⟩]) acc =
      acc ++ anchors.filterMap (fun a => (classify_link a.text a.href).map
        (fun t => (⟨pyUrljoin page a.href, strStrip a.text, t, page⟩ : LinkInfo))) := by
  intro anchors
  induction anchors with
  | nil => intro acc; simp
  | cons a rest ih =>
    intro acc
    cases hcl : classify_link a.text a.href with
    | none => simp [List.foldl_cons, List.filterMap_cons, hcl, ih]
    | some t => simp [List.foldl_cons, List.filterMap_cons, hcl, ih]

/-- Claim C8 (confirmed): link classification is the total function
`classify_link` of the pair (link text, href) alone, so the anchor loop of
`grab_ir_links` equals a pointwise `filterMap` over the anchors: two
anchors with identical text and href always receive the same tag, and the
tag of each anchor is independent of discovery order and of every other
anchor or state. -/
theorem classification_deterministic (anchors : List Anchor) (page : String) :
    grab_ir_links_from anchors page =
      anchors.filterMap (fun a => (classify_link a.text a.href).map
        (fun t => (⟨pyUrljoin page a.href, strStrip a.text, t, page⟩ : LinkInfo))) := by
  unfold grab_ir_links_from
  simpa using grab_ir_links_foldl page anchors []

/-- Claim C7 (counterexample): a present file holding the valid JSON dict
with `"document_metadata_store"` bound to the string `"x"` is data that
cannot be decoded as the expected structure (`wellFormedFile` is false),
yet constructing the store does not load an empty store: `json.load`
succeeds, `loaded_data.get` returns the ill-typed value, and
`_load_from_json` assigns it verbatim with no exception raised — the
document-metadata family is the string, not an empty record family. -/
theorem load_illtyped_not_empty_counterexample :
    wellFormedFile (.decoded (.dict [("document_metadata_store", .str "x")])) = false
    ∧ load_from_json (.decoded (.dict [("document_metadata_store", .str "x")])) =
        ⟨.dict [], .str "x", .dict []⟩
    ∧ load_from_json (.decoded (.dict [("document_metadata_store", .str "x")])) ≠
        emptyDataStore := by
  refine ⟨rfl, rfl, ?_⟩
  intro h
  exact PyJson.noConfusion (congrArg DataStoreState.document_metadata_store h)

/-- Claim C7 (amended as the counterexample forces): a missing file, a
file that fails JSON decoding, or a file whose decoded value is not a
dict (the `.get` attribute access raises `AttributeError`, caught by the
`except Exception` clause) loads the empty store — all three record
families empty — without raising, and a subsequent save on a working
filesystem succeeds, writes a well-formed snapshot file, and that file
decodes back to the same empty store.  A file that decodes as a JSON dict
is instead read with `{}` defaults and its family values assigned
verbatim, even when ill-typed (last conjunct) — that is the correction. -/
theorem load_recovery_amended (f : StoreFile) (now : String)
    (hf : f = .missing ∨ f = .undecodable ∨ ∃ v, f = .decoded v ∧ isJDict v = false) :
    load_from_json f = emptyDataStore
    ∧ wellFormedFile (save_to_json (load_from_json f) now true f) = true
    ∧ load_from_json (save_to_json (load_from_json f) now true f) = emptyDataStore
    ∧ (∀ entries : List (String × PyJson),
        load_from_json (.decoded (.dict entries)) =
          ⟨jsonGet entries "companies_info" (.dict []),
           jsonGet entries "document_metadata_store" (.dict []),
           jsonGet entries "summary_metadata_store" (.dict [])⟩) := by
  have hempty : load_from_json f = emptyDataStore := by
    rcases hf with h | h | ⟨v, hv, hd⟩
    · rw [h]
      rfl
    · rw [h]
      rfl
    · subst hv
      cases v with
      | str s => rfl
      | dict entries => exact Bool.noConfusion hd
      | list xs => rfl
      | other => rfl
  refine ⟨hempty, ?_, ?_, fun entries => rfl⟩
  · rw [hempty]
    rfl
  · rw [hempty]
    rfl

theorem load_recovery_amended_witness :
    (StoreFile.decoded (.str "junk") = StoreFile.missing
      ∨ StoreFile.decoded (.str "junk") = StoreFile.undecodable
      ∨ ∃ v, StoreFile.decoded (.str "junk") = StoreFile.decoded v ∧ isJDict v = false)
    ∧ load_from_json (.decoded (.str "junk")) = emptyDataStore
    ∧ wellFormedFile (save_to_json (load_from_json (.decoded (.str "junk")))
        "2026-10-12T00:00:00" true (.decoded (.str "junk"))) = true
    ∧ load_from_json (save_to_json (load_from_json (.decoded (.str "junk")))
        "2026-10-12T00:00:00" true (.decoded (.str "junk"))) = emptyDataStore :=
  ⟨Or.inr (Or.inr ⟨.str "junk", rfl, rfl⟩),
   (load_recovery_amended (.decoded (.str "junk")) "2026-10-12T00:00:00"
     (Or.inr (Or.inr ⟨.str "junk", rfl, rfl⟩))).1,
   (load_recovery_amended (.decoded (.str "junk")) "2026-10-12T00:00:00"
     (Or.inr (Or.inr ⟨.str "junk", rfl, rfl⟩))).2.1,
   (load_recovery_amended (.decoded (.str "junk")) "2026-10-12T00:00:00"
     (Or.inr (Or.inr ⟨.str "junk", rfl, rfl⟩))).2.2.1⟩

theorem download_document_ok (env : FetchEnv) (url : String) (hsafe : safeEnv env = true) :
    ∃ res : DlResult, download_document env url = .ok res := by
  simp only [safeEnv, Bool.and_eq_true, Bool.or_eq_true, Bool.not_eq_true'] at hsafe
  obtain ⟨hmk, hrest⟩ := hsafe
  unfold download_document
  cases hm : env.makedirsResult with
  | error e => rw [hm] at hmk; simp [isOkU] at hmk
  | ok u =>
    by_cases hfe : (env.fileExists && env.metaExists) = true
    · cases hmr : env.metaRead with
      | error e =>
        exfalso
        rcases hrest with h | h
        · rw [hfe] at h; cases h
        · rw [hmr] at h; simp [isOkMeta] at h
      | ok m =>
        exact ⟨⟨true, some "skipped_exists", some m, none⟩, by simp [hfe, hmr]⟩
    · cases hb : download_try_body env url with
      | ok r => exact ⟨r, by simp [hfe, hb]⟩
      | error e =>
        cases e with
        | requestExc msg =>
          exact ⟨⟨false, some "failed_download", none, some msg⟩, by simp [hfe, hb]⟩
        | otherExc msg =>
          exact ⟨⟨false, some "failed_unexpected", none, some msg⟩, by simp [hfe, hb]⟩

theorem download_document_request_failed (env : FetchEnv) (url msg : String)
    (hmk : env.makedirsResult = .ok ()) (hfe : (env.fileExists && env.metaExists) = false)
    (hget : env.httpGet = .error (.requestExc msg)) :
    download_document env url = .ok ⟨false, some "failed_download", none, some msg⟩ := by
  unfold download_document
  rw [hmk]
  have hb : download_try_body env url = .error (.requestExc msg) := by
    unfold download_try_body
    rw [hget]
    rfl
  simp [hfe, hb]

theorem download_filing_document_ok (df : List CompanyRow) (ticker : String)
    (env : FetchEnv) (url : String) (hsafe : safeEnv env = true) :
    ∃ res : DlResult, download_filing_document df ticker env url = .ok res := by
  simp only [safeEnv, Bool.and_eq_true, Bool.or_eq_true, Bool.not_eq_true'] at hsafe
  obtain ⟨hmk, hrest⟩ := hsafe
  unfold download_filing_document
  cases hc : get_company_cik df ticker with
  | none => exact ⟨⟨false, none, none, some ("CIK not found for ticker " ++ ticker)⟩, rfl⟩
  | some cik =>
    by_cases hcz : cik = ""
    · exact ⟨⟨false, none, none, some ("CIK not found for ticker " ++ ticker)⟩, by simp [hcz]⟩
    · cases hm : env.makedirsResult with
      | error e => rw [hm] at hmk; simp [isOkU] at hmk
      | ok u =>
        by_cases hfe : (env.fileExists && env.metaExists) = true
        · cases hmr : env.metaRead with
          | error e =>
            exfalso
            rcases hrest with h | h
            · rw [hfe] at h; cases h
            · rw [hmr] at h; simp [isOkMeta] at h
          | ok m =>
            exact ⟨⟨true, some "skipped_exists", some m, none⟩, by simp [hcz, hfe, hmr]⟩
        · cases hb : download_try_body env url with
          | ok r => exact ⟨r, by simp [hcz, hfe, hb]⟩
          | error e =>
            cases e with
            | requestExc msg =>
              exact ⟨⟨false, some "failed_download", none, some msg⟩, by simp [hcz, hfe, hb]⟩
            | otherExc msg =>
              exact ⟨⟨false, some "failed_unexpected", none, some msg⟩, by simp [hcz, hfe, hb]⟩

theorem process_company_downloads_ok :
    ∀ (items : List (LinkInfo × FetchEnv)), (∀ p ∈ items, safeEnv p.2 = true) →
      ∃ rs : List DlResult, process_company_downloads items = .ok rs ∧
        rs.length = (items.filter
          (fun p => !(p.1.type == "SEC Filings Page" && !(strHas p.1.url "sec.gov")))).length := by
  intro items
  induction items with
  | nil => intro _; exact ⟨[], rfl, rfl⟩
  | cons p rest ih =>
    intro hall
    obtain ⟨li, env⟩ := p
    obtain ⟨rs, hrs, hlen⟩ := ih (fun q hq => hall q (List.mem_cons_of_mem _ hq))
    have hsafe := hall (li, env) (List.mem_cons_self _ _)
    by_cases hskip : (li.type == "SEC Filings Page" && !(strHas li.url "sec.gov")) = true
    · refine ⟨rs, ?_, ?_⟩
      · simp [process_company_downloads, hskip, hrs]
      · simp only [List.filter_cons, hskip, Bool.not_true, if_false]
        exact hlen
    · have hskipF : (li.type == "SEC Filings Page" && !(strHas li.url "sec.gov")) = false :=
        Bool.eq_false_iff.mpr hskip
      obtain ⟨r, hr⟩ := download_document_ok env li.url hsafe
      refine ⟨r :: rs, ?_, ?_⟩
      · simp [process_company_downloads, hskip, hr, hrs]
      · simp only [List.filter_cons, hskipF, Bool.not_false, if_true, List.length_cons]
        rw [hlen]

/-- Claim C6 (counterexample): with the artifact and its sidecar present on
disk but the sidecar read failing (for instance corrupt sidecar JSON — a
filesystem/decode fault during the fetch-and-persist attempt), the IR
`download_document` raises instead of returning a `Failed` outcome: the
`open`/`json.load` at ir_scraper.py lines 207-208 (and likewise
sec_fetcher.py lines 127-128, and `os.makedirs` at lines 189/118) run
before the `try`, so the exception propagates to the caller. -/
theorem download_errors_caught_counterexample :
    download_document
        ⟨.ok (), true, true, .error (.otherExc "sidecar json decode failed"),
         .ok (), .ok (), .ok "h", .ok ()⟩ "https://example.com/10k.pdf" =
      .error (.otherExc "sidecar json decode failed") := rfl

/-- Claim C6 (amended as the counterexample forces): every error raised
inside the guarded `try` region — the HTTP request with `raise_for_status`,
the streamed write, the hash read-back, the sidecar write — is caught by
both downloaders and converted to a `Failed` result dict (in particular a
`requests.RequestException` becomes the `failed_download` dict), and a
`Failed` outcome for one reference never aborts the processing of sibling
references: the `process_company` loop appends every result, failed or
not, and only a *raised* exception (possible only in the pre-`try` region:
directory creation, reading an existing sidecar) would abort it. -/
theorem download_errors_caught_amended :
    (∀ (env : FetchEnv) (url : String), safeEnv env = true →
      ∃ res : DlResult, download_document env url = .ok res)
    ∧ (∀ (env : FetchEnv) (url msg : String),
        env.makedirsResult = .ok () → (env.fileExists && env.metaExists) = false →
        env.httpGet = .error (.requestExc msg) →
        download_document env url = .ok ⟨false, some "failed_download", none, some msg⟩)
    ∧ (∀ (df : List CompanyRow) (ticker : String) (env : FetchEnv) (url : String),
        safeEnv env = true →
        ∃ res : DlResult, download_filing_document df ticker env url = .ok res)
    ∧ (∀ (items : List (LinkInfo × FetchEnv)),
        (∀ p ∈ items, safeEnv p.2 = true) →
        ∃ rs : List DlResult, process_company_downloads items = .ok rs ∧
          rs.length = (items.filter
            (fun p => !(p.1.type == "SEC Filings Page" && !(strHas p.1.url "sec.gov")))).length) :=
  ⟨download_document_ok, download_document_request_failed,
   download_filing_document_ok, process_company_downloads_ok⟩

theorem download_errors_caught_amended_witness :
    safeEnv ⟨.ok (), false, false, .ok ⟨none, none⟩, .ok (), .ok (), .ok "h", .ok ()⟩ = true
    ∧ (∃ res : DlResult, download_document
        ⟨.ok (), false, false, .ok ⟨none, none⟩, .ok (), .ok (), .ok "h", .ok ()⟩
        "https://example.com/a.pdf" = .ok res)
    ∧ download_document
        ⟨.ok (), false, false, .ok ⟨none, none⟩, .error (.requestExc "timeout"),
         .ok (), .ok "h", .ok ()⟩ "https://example.com/a.pdf" =
        .ok ⟨false, some "failed_download", none, some "timeout"⟩
    ∧ (∃ res : DlResult, download_filing_document
        [⟨"AAPL", some "Apple", some "0000320193"⟩] "AAPL"
        ⟨.ok (), false, false, .ok ⟨none, none⟩, .ok (), .ok (), .ok "h", .ok ()⟩
        "https://www.sec.gov/x.htm" = .ok res)
    ∧ (∃ rs : List DlResult, process_company_downloads
        [(⟨"https://example.com/a.pdf", "10-K", "10-K", "https://example.com"⟩,
          ⟨.ok (), false, false, .ok ⟨none, none⟩, .error (.requestExc "timeout"),
           .ok (), .ok "h", .ok ()⟩)] = .ok rs ∧
        rs.length = (([(⟨"https://example.com/a.pdf", "10-K", "10-K", "https://example.com"⟩,
          (⟨.ok (), false, false, .ok ⟨none, none⟩, .error (.requestExc "timeout"),
           .ok (), .ok "h", .ok ()⟩ : FetchEnv))] :
            List (LinkInfo × FetchEnv)).filter
          (fun p => !(p.1.type == "SEC Filings Page" && !(strHas p.1.url "sec.gov")))).length) :=
  ⟨rfl,
   download_errors_caught_amended.1
     ⟨.ok (), false, false, .ok ⟨none, none⟩, .ok (), .ok (), .ok "h", .ok ()⟩
     "https://example.com/a.pdf" rfl,
   download_errors_caught_amended.2.1
     ⟨.ok (), false, false, .ok ⟨none, none⟩, .error (.requestExc "timeout"),
      .ok (), .ok "h", .ok ()⟩ "https://example.com/a.pdf" "timeout" rfl rfl rfl,
   download_errors_caught_amended.2.2.1 [⟨"AAPL", some "Apple", some "0000320193"⟩] "AAPL"
     ⟨.ok (), false, false, .ok ⟨none, none⟩, .ok (), .ok (), .ok "h", .ok ()⟩
     "https://www.sec.gov/x.htm" rfl,
   download_errors_caught_amended.2.2.2
     [(⟨"https://example.com/a.pdf", "10-K", "10-K", "https://example.com"⟩,
       ⟨.ok (), false, false, .ok ⟨none, none⟩, .error (.requestExc "timeout"),
        .ok (), .ok "h", .ok ()⟩)]
     (by
       intro p hp
       rw [List.mem_singleton] at hp
       subst hp
       rfl)⟩

theorem store_results_foldl (t c : String) :
    ∀ (rs : List DlResult) (s : Store) (n : Nat),
      rs.foldl
        (fun acc res =>
          if res.success && res.status == some "downloaded" then
            (add_document_metadata acc.1 t c (res.metadata.getD ⟨none, none⟩), acc.2 + 1)
          else acc) (s, n) =
      ((rs.filter (fun res => res.success && res.status == some "downloaded")).foldl
        (fun st res => add_document_metadata st t c (res.metadata.getD ⟨none, none⟩)) s,
       n + (rs.filter (fun res => res.success && res.status == some "downloaded")).length) := by
  intro rs
  induction rs with
  | nil => intro s n; simp
  | cons r rest ih =>
    intro s n
    by_cases hr : (r.success && r.status == some "downloaded") = true
    · rw [List.foldl_cons, if_pos hr, ih, List.filter_cons, if_pos hr, List.foldl_cons]
      simp only [Prod.mk.injEq, List.length_cons]
      exact ⟨by trivial, by omega⟩
    · have hrF : (r.success && r.status == some "downloaded") = false := Bool.eq_false_iff.mpr hr
      rw [List.foldl_cons, if_neg hr, ih, List.filter_cons, hrF]
      simp

/-- Claim C1 (counterexample): for a first fetch outcome `Stored`
(`status "downloaded"`) and a second `AlreadyPresent`
(`status "skipped_exists"`) of the same same-day URL, the caller loop
invokes `add_document_metadata` exactly once, not twice: the
`AlreadyPresent` outcome's metadata does not flow through `add_document`,
because the loops at tasks.py lines 48-51 and 68-71 and routes.py lines
90-93 and 121-124 filter on `status == "downloaded"`.  The counter is the
source's own `successful_downloads`, incremented in the same branch as the
`add_document_metadata` call. -/
theorem already_present_not_added_counterexample :
    (store_download_results [] "AAPL" "sec"
      [⟨true, some "downloaded", some ⟨some "h", some "https://example.com/10k.pdf"⟩, none⟩,
       ⟨true, some "skipped_exists", some ⟨some "h", some "https://example.com/10k.pdf"⟩,
        none⟩]).2 = 1
    ∧ ¬((store_download_results [] "AAPL" "sec"
      [⟨true, some "downloaded", some ⟨some "h", some "https://example.com/10k.pdf"⟩, none⟩,
       ⟨true, some "skipped_exists", some ⟨some "h", some "https://example.com/10k.pdf"⟩,
        none⟩]).2 = 2) :=
  ⟨by decide, by decide⟩

/-- Claim C1 (amended as the counterexample forces): the caller passes to
`add_document_metadata` exactly the outcomes with `success` true and
`status == "downloaded"`; an `AlreadyPresent` (`skipped_exists`) outcome is
not passed.  For the same-day two-fetch scenario (first `Stored`, second
`AlreadyPresent`) the resulting store is the store after adding the first
outcome's metadata alone and the add counter is 1 — and starting from a
store with no documents under (ticker, "sec"), the store then contains
exactly one `DocumentMetadata` entry for the document. -/
theorem store_results_filters_downloaded (s : Store) (t : String) (m1 m2 : DocMeta)
    (h0 : listOf (bucketOf s (strUpper t)) "sec" = []) :
    (∀ (c : String) (rs : List DlResult),
      store_download_results s t c rs =
        ((rs.filter (fun res => res.success && res.status == some "downloaded")).foldl
          (fun st res => add_document_metadata st t c (res.metadata.getD ⟨none, none⟩)) s,
         (rs.filter (fun res => res.success && res.status == some "downloaded")).length))
    ∧ store_download_results s t "sec"
        [⟨true, some "downloaded", some m1, none⟩,
         ⟨true, some "skipped_exists", some m2, none⟩] =
        (add_document_metadata s t "sec" m1, 1)
    ∧ docCount (store_download_results s t "sec"
        [⟨true, some "downloaded", some m1, none⟩,
         ⟨true, some "skipped_exists", some m2, none⟩]).1 t "sec" = 1 := by
  have hpair : store_download_results s t "sec"
      [⟨true, some "downloaded", some m1, none⟩,
       ⟨true, some "skipped_exists", some m2, none⟩] =
      (add_document_metadata s t "sec" m1, 1) := by
    unfold store_download_results
    rw [store_results_foldl t "sec" _ s 0]
    simp
  refine ⟨?_, hpair, ?_⟩
  · intro c rs
    unfold store_download_results
    rw [store_results_foldl t c rs s 0]
    simp
  · have happ := add_append_of_not_dup s t "sec" m1 (Or.inr rfl) (by rw [h0]; simp)
    rw [hpair, docCount, happ, h0]
    rfl

theorem store_results_filters_downloaded_witness :
    listOf (bucketOf [] (strUpper "AAPL")) "sec" = []
    ∧ store_download_results [] "AAPL" "sec"
        [⟨true, some "downloaded", some ⟨some "h", some "https://example.com/10k.pdf"⟩, none⟩,
         ⟨true, some "skipped_exists", some ⟨some "h", some "https://example.com/10k.pdf"⟩,
          none⟩] =
        (add_document_metadata [] "AAPL" "sec" ⟨some "h", some "https://example.com/10k.pdf"⟩, 1)
    ∧ docCount (store_download_results [] "AAPL" "sec"
        [⟨true, some "downloaded", some ⟨some "h", some "https://example.com/10k.pdf"⟩, none⟩,
         ⟨true, some "skipped_exists", some ⟨some "h", some "https://example.com/10k.pdf"⟩,
          none⟩]).1 "AAPL" "sec" = 1 :=
  ⟨by decide,
   (store_results_filters_downloaded [] "AAPL"
     ⟨some "h", some "https://example.com/10k.pdf"⟩
     ⟨some "h", some "https://example.com/10k.pdf"⟩ (by decide)).2.1,
   (store_results_filters_downloaded [] "AAPL"
     ⟨some "h", some "https://example.com/10k.pdf"⟩
     ⟨some "h", some "https://example.com/10k.pdf"⟩ (by decide)).2.2⟩
